import Mathlib

/-!
Shallow embedding of the client-side subscription engine
(`opcua/common/subscription.py`) and proofs about it.

The collaborator types of the protocol layer (the `ua` module: status
codes, requests, responses) and the event helper module are out of the
scope of the repository core; they are modelled from the interface
contracts the specification gives for them (opaque payloads, statuses
reduced to their goodness flag).  All control flow and state
manipulation below is translated directly from
`Subscription` in `opcua/common/subscription.py`.
-/

set_option autoImplicit false

namespace OpcUa

/-- Modelled from the spec: status codes are an external collaborator
type; only goodness is inspected by the subscription core
(`result.StatusCode.is_good()`), so a status code is reduced to its
goodness flag. -/
structure StatusCode where
  isGood : Bool
deriving Repr, DecidableEq

/-- Modelled from the spec: opaque protocol variant payload
(`item.Value.Value.Value` unwraps a DataValue and a Variant). -/
structure Variant where
  Value : Int
deriving Repr, DecidableEq

/-- Modelled from the spec: data value wrapper around a variant. -/
structure DataValue where
  Value : Variant
deriving Repr, DecidableEq

/-- Modelled from the spec: an event filter carries a list of select
clauses (opaque, owned by the caller); clauses are reduced to opaque
identifiers. -/
structure EventFilter where
  SelectClauses : List Nat
deriving Repr, DecidableEq

/-- Monitoring parameters built by `_make_monitored_item_request`. -/
structure MonitoringParameters where
  ClientHandle : Nat
  SamplingInterval : Nat
  QueueSize : Nat
  DiscardOldest : Bool
  Filter : Option EventFilter
deriving Repr, DecidableEq

/-- Read target built by `_make_monitored_item_request`; the node
identifier is opaque. -/
structure ReadValueId where
  NodeId : Nat
  AttributeId : Nat
deriving Repr, DecidableEq

/-- Monitoring mode enumeration of the protocol layer. -/
inductive MonitoringMode where
  | Disabled
  | Sampling
  | Reporting
deriving Repr, DecidableEq

/-- One monitored-item creation request. -/
structure MonitoredItemCreateRequest where
  ItemToMonitor : ReadValueId
  MonitoringMode : MonitoringMode
  RequestedParameters : MonitoringParameters
deriving Repr, DecidableEq

/-- Modelled from the spec: one monitored-item creation result,
`CreateResult{StatusCode, MonitoredItemId}`. -/
structure MonitoredItemCreateResult where
  StatusCode : StatusCode
  MonitoredItemId : Nat
deriving Repr, DecidableEq

/-- One record of a data-change notification. -/
structure MonitoredItemNotification where
  ClientHandle : Nat
  Value : DataValue
deriving Repr, DecidableEq

/-- Data-change notification, a batch of monitored-item records. -/
structure DataChangeNotification where
  MonitoredItems : List MonitoredItemNotification
deriving Repr, DecidableEq

/-- One record of an event-notification list. -/
structure EventFieldList where
  ClientHandle : Nat
  EventFields : List Variant
deriving Repr, DecidableEq

/-- Event notification, a batch of event records. -/
structure EventNotificationList where
  Events : List EventFieldList
deriving Repr, DecidableEq

/-- Status-change notification. -/
structure StatusChangeNotification where
  Status : StatusCode
deriving Repr, DecidableEq

/-- The notification variants `publish_callback` discriminates with
isinstance tests; `unsupported` stands for any other variant. -/
inductive NotificationData where
  | dataChange (n : DataChangeNotification)
  | eventList (n : EventNotificationList)
  | statusChange (n : StatusChangeNotification)
  | unsupported
deriving Repr, DecidableEq

/-- Notification message of a publish response. -/
structure NotificationMessage where
  SequenceNumber : Nat
  NotificationData : List NotificationData
deriving Repr, DecidableEq

/-- Publish response handed to `publish_callback`. -/
structure PublishResult where
  NotificationMessage : NotificationMessage
deriving Repr, DecidableEq

/-- Acknowledgement sent back on the next publish request. -/
structure SubscriptionAcknowledgement where
  SubscriptionId : Nat
  SequenceNumber : Nat
deriving Repr, DecidableEq

/-- Python exceptions that can escape the translated code paths. -/
inductive PyError where
  | keyError
  | attributeError
  | indexError
  | badStatus (sc : StatusCode)
deriving Repr, DecidableEq

/-- Modelled from the spec: the event collaborator decodes event fields
into a structured event object using the select-clause list
(`events.event_obj_from_event_fields`, external to the core); the
decoding itself is opaque, so the model retains its two inputs.  The
`server_handle` attribute is attached afterwards by `_call_event`. -/
structure EventObj where
  SelectClauses : List Nat
  EventFields : List Variant
  server_handle : Option Nat
deriving Repr, DecidableEq

/-- Modelled from the spec: opaque event decoding, retaining inputs. -/
def event_obj_from_event_fields (clauses : List Nat) (fields : List Variant) : EventObj :=
  { SelectClauses := clauses, EventFields := fields, server_handle := none }

/-- Per-item registry entry (`SubscriptionItemData`); the `node` field
stores the node identifier wrapped by the addressing collaborator. -/
structure SubscriptionItemData where
  node : Nat
  client_handle : Nat
  server_handle : Option Nat
  attributeId : Nat   -- the source field is named attribute, a keyword here
  mfilter : Option EventFilter
deriving Repr, DecidableEq

/-- Envelope handed to the primary data-change callback
(`DataChangeNotif(data, item)`). -/
structure DataChangeNotif where
  subscription_data : SubscriptionItemData
  monitored_item : MonitoredItemNotification
deriving Repr, DecidableEq

/-- Capability flags of the application handler object: structural
presence of each optionally implemented callback (`hasattr` tests). -/
structure Handler where
  hasDatachangeNotification : Bool
  hasDataChange : Bool
  hasEventNotification : Bool
  hasEvent : Bool
  hasStatusChange : Bool
deriving Repr, DecidableEq

/-- Observable actions of the subscription code: application callback
invocations, log emissions, and publish requests to the server. -/
inductive Action where
  | datachangeNotification (node : Nat) (value : Int) (data : DataChangeNotif)
  | dataChangeDeprecated (server_handle : Option Nat) (node : Nat) (value : Int) (attributeId : Nat)
  | eventNotification (ev : EventObj)
  | eventDeprecated (server_handle : Option Nat) (ev : EventObj)
  | statusChange (status : StatusCode)
  | logInfo
  | logWarning
  | logError
  | logException
  | publish (acks : List SubscriptionAcknowledgement)
deriving Repr, DecidableEq

/-- Oracle describing the runtime behaviour of the application
callbacks: for each invocation, whether the callback raises. -/
abbrev Oracle := Action → Bool

/-- True for the publish action. -/
def Action.isPub : Action → Bool
  | .publish _ => true
  | _ => false

/-- True for the log actions. -/
def Action.isLog : Action → Bool
  | .logInfo => true
  | .logWarning => true
  | .logError => true
  | .logException => true
  | _ => false

/-- The registry `_monitoreditems_map`: a Python dict modelled as an
insertion-ordered association list with unique keys. -/
abbrev Registry := List (Nat × SubscriptionItemData)

/-- Dict lookup: first pair with the key. -/
def rLookup : Registry → Nat → Option SubscriptionItemData
  | [], _ => none
  | p :: rest, k => if p.1 = k then some p.2 else rLookup rest k

/-- Dict update: replace in place when the key is present, else append
(insertion order preserved, as in a Python dict). -/
def rInsert : Registry → Nat → SubscriptionItemData → Registry
  | [], k, v => [(k, v)]
  | p :: rest, k, v => if p.1 = k then (k, v) :: rest else p :: rInsert rest k v

/-- Dict deletion of a key (first pair with the key). -/
def rErase : Registry → Nat → Registry
  | [], _ => []
  | p :: rest, k => if p.1 = k then rest else p :: rErase rest k

/-- The keys of a registry. -/
def regKeys (reg : Registry) : List Nat := reg.map Prod.fst

/-- Requested parameters of a subscription
(`self.parameters`; only the publishing interval is read by the core). -/
structure SubscriptionParameters where
  RequestedPublishingInterval : Nat
deriving Repr, DecidableEq

/-- State of one `Subscription` object after construction: server id,
handle counter (initialised to 200), registry, handler.  The transport
collaborator and the lock are not part of the functional state; server
interactions are passed in as explicit result values. -/
structure Subscription where
  subscription_id : Nat
  client_handle : Nat
  parameters : SubscriptionParameters
  monitoreditems_map : Registry
  handler : Handler
deriving Repr, DecidableEq

/-- Result slots of `create_monitored_items`: a server-assigned
monitored-item id on success, the status code on failure. -/
inductive MIResult where
  | status (sc : StatusCode)
  | mid (id : Nat)
deriving Repr, DecidableEq

/-- One guarded callback invocation: the call happens, and when the
oracle says the application code raises, the exception is caught and
logged (`try ... except Exception: logger.exception(...)`). -/
def dispatchTry (o : Oracle) (a : Action) : List Action :=
  if o a then [a, Action.logException] else [a]

/-- Body of the loop of `_call_datachange` for one monitored-item
record: resolve the client handle under the lock (unknown handle is
logged and skipped), then dispatch to the primary callback, the
deprecated callback, or an error log. -/
def callDatachangeItem (o : Oracle) (st : Subscription) (item : MonitoredItemNotification) :
    List Action :=
  match rLookup st.monitoreditems_map item.ClientHandle with
  | none => [Action.logWarning]
  | some data =>
    if st.handler.hasDatachangeNotification then
      dispatchTry o (Action.datachangeNotification data.node item.Value.Value.Value
        { subscription_data := data, monitored_item := item })
    else if st.handler.hasDataChange then
      Action.logWarning ::
        dispatchTry o (Action.dataChangeDeprecated data.server_handle data.node
          item.Value.Value.Value data.attributeId)
    else
      [Action.logError]

/-- Translation of `Subscription._call_datachange`. -/
def _call_datachange (o : Oracle) (st : Subscription) (datachange : DataChangeNotification) :
    List Action :=
  (datachange.MonitoredItems.map (callDatachangeItem o st)).flatten

/-- Body of the loop of `_call_event` for one event record: the client
handle is looked up directly (`self._monitoreditems_map[event.ClientHandle]`),
so an unknown handle raises KeyError; then the entry filter select
clauses are read (`data.mfilter.SelectClauses` raises AttributeError
when the entry has no filter), the event object is decoded, the server
handle attached, and the handler dispatched. -/
def callEventOne (o : Oracle) (st : Subscription) (event : EventFieldList) :
    Except PyError (List Action) :=
  match rLookup st.monitoreditems_map event.ClientHandle with
  | none => .error .keyError
  | some data =>
    match data.mfilter with
    | none => .error .attributeError
    | some f =>
      let decoded := event_obj_from_event_fields f.SelectClauses event.EventFields
      let result := { decoded with server_handle := data.server_handle }
      if st.handler.hasEventNotification then
        .ok (dispatchTry o (Action.eventNotification result))
      else if st.handler.hasEvent then
        .ok (dispatchTry o (Action.eventDeprecated data.server_handle result))
      else
        .ok [Action.logError]

/-- Translation of `Subscription._call_event`; an exception raised by a
record propagates, abandoning the remaining records. -/
def _call_event (o : Oracle) (st : Subscription) : List EventFieldList →
    Except PyError (List Action)
  | [] => .ok []
  | ev :: rest =>
    match callEventOne o st ev with
    | .error e => .error e
    | .ok t =>
      match _call_event o st rest with
      | .error e => .error e
      | .ok ts => .ok (t ++ ts)

/-- Translation of `Subscription._call_status`: the attribute access on
a handler without the method raises AttributeError inside the try
block, which is caught and logged like a callback failure. -/
def _call_status (o : Oracle) (st : Subscription) (status : StatusChangeNotification) :
    List Action :=
  if st.handler.hasStatusChange then dispatchTry o (Action.statusChange status.Status)
  else [Action.logException]

/-- The notification loop of `publish_callback`: each record is
dispatched on its isinstance variant; unsupported variants are logged
and ignored. -/
def processOne (o : Oracle) (st : Subscription) : NotificationData →
    Except PyError (List Action)
  | .dataChange d => .ok (_call_datachange o st d)
  | .eventList e => _call_event o st e.Events
  | .statusChange s => .ok (_call_status o st s)
  | .unsupported => .ok [Action.logWarning]

def processNotifs (o : Oracle) (st : Subscription) : List NotificationData →
    Except PyError (List Action)
  | [] => .ok []
  | n :: rest =>
    match processOne o st n with
    | .error e => .error e
    | .ok t =>
      match processNotifs o st rest with
      | .error e => .error e
      | .ok ts => .ok (t ++ ts)

/-- Translation of `Subscription.publish_callback`: log, process every
notification record, then build one acknowledgement carrying this
subscription id and the message sequence number and send it on one new
publish request.  The spin-wait on an unset subscription id concerns
only the construction race and is outside this state model, where the
id is always set. -/
def publish_callback (o : Oracle) (st : Subscription) (publishresult : PublishResult) :
    Except PyError (List Action) :=
  match processNotifs o st publishresult.NotificationMessage.NotificationData with
  | .error e => .error e
  | .ok t =>
    let ack : SubscriptionAcknowledgement :=
      { SubscriptionId := st.subscription_id
        SequenceNumber := publishresult.NotificationMessage.SequenceNumber }
    .ok ((Action.logInfo :: t) ++ [Action.publish [ack]])

/-- Placeholder registry entry inserted for a request before the
creation batch is sent (`server_handle` is left unset on purpose). -/
def placeholderFor (mi : MonitoredItemCreateRequest) : SubscriptionItemData :=
  { node := mi.ItemToMonitor.NodeId
    client_handle := mi.RequestedParameters.ClientHandle
    server_handle := none
    attributeId := mi.ItemToMonitor.AttributeId
    mfilter := mi.RequestedParameters.Filter }

/-- First half of `create_monitored_items`: under the lock, insert one
placeholder entry per request, keyed by the request client handle. -/
def insertPlaceholders (reg : Registry) (monitored_items : List MonitoredItemCreateRequest) :
    Registry :=
  monitored_items.foldl
    (fun r mi => rInsert r mi.RequestedParameters.ClientHandle (placeholderFor mi)) reg

/-- Second half of `create_monitored_items`: enumerate the results; for
a non-good status delete the placeholder (KeyError if absent, as for a
Python del) and report the status code; otherwise look the entry up
(KeyError if absent), fill in the server-assigned id and report it.
An index beyond the request list raises IndexError. -/
def processResults (items : List MonitoredItemCreateRequest) :
    Registry → Nat → List MonitoredItemCreateResult →
    Except PyError (Registry × List MIResult)
  | reg, _, [] => .ok (reg, [])
  | reg, idx, result :: rest =>
    match items.get? idx with
    | none => .error .indexError
    | some mi =>
      if result.StatusCode.isGood = false then
        match rLookup reg mi.RequestedParameters.ClientHandle with
        | none => .error .keyError
        | some _ =>
          match processResults items (rErase reg mi.RequestedParameters.ClientHandle)
              (idx + 1) rest with
          | .error e => .error e
          | .ok (reg', mids) => .ok (reg', MIResult.status result.StatusCode :: mids)
      else
        match rLookup reg mi.RequestedParameters.ClientHandle with
        | none => .error .keyError
        | some data =>
          match processResults items
              (rInsert reg mi.RequestedParameters.ClientHandle
                { data with server_handle := some result.MonitoredItemId })
              (idx + 1) rest with
          | .error e => .error e
          | .ok (reg', mids) => .ok (reg', MIResult.mid result.MonitoredItemId :: mids)

/-- Translation of `Subscription.create_monitored_items`.  The server
answer to the creation batch is passed in as `results` (the transport
collaborator is an oracle).  Placeholders are inserted before the batch
is sent, hence before `results` is consumed. -/
def create_monitored_items (st : Subscription) (monitored_items : List MonitoredItemCreateRequest)
    (results : List MonitoredItemCreateResult) :
    Except PyError (Subscription × List MIResult) :=
  let reg1 := insertPlaceholders st.monitoreditems_map monitored_items
  match processResults monitored_items reg1 0 results with
  | .error e => .error e
  | .ok (reg2, mids) => .ok ({ st with monitoreditems_map := reg2 }, mids)

/-- The registry scan of `unsubscribe`: delete the first entry whose
server handle equals the given handle and stop. -/
def removeFirstByServerHandle : Registry → Nat → Registry
  | [], _ => []
  | p :: rest, h => if p.2.server_handle = some h then rest else p :: removeFirstByServerHandle rest h

/-- Translation of `Subscription.unsubscribe`.  The server answer to
the delete-monitored-items request is passed in as `results`; the first
status is checked (BadStatus propagates on a non-good status) before
the registry is scanned. -/
def unsubscribe (st : Subscription) (handle : Nat) (results : List StatusCode) :
    Except PyError Subscription :=
  match results.get? 0 with
  | none => .error .indexError
  | some r =>
    if r.isGood then
      .ok { st with monitoreditems_map := removeFirstByServerHandle st.monitoreditems_map handle }
    else
      .error (.badStatus r)

/-- Translation of `Subscription._make_monitored_item_request`: build
the read target and the monitoring parameters, incrementing the handle
counter under the lock and assigning the new counter value as the
client handle. -/
def _make_monitored_item_request (st : Subscription) (node : Nat) (attr : Nat)
    (mfilter : Option EventFilter) (queuesize : Nat) :
    Subscription × MonitoredItemCreateRequest :=
  let rv : ReadValueId := { NodeId := node, AttributeId := attr }
  let counter := st.client_handle + 1
  let mparams : MonitoringParameters :=
    { ClientHandle := counter
      SamplingInterval := st.parameters.RequestedPublishingInterval
      QueueSize := queuesize
      DiscardOldest := true
      Filter := mfilter }
  ({ st with client_handle := counter },
   { ItemToMonitor := rv, MonitoringMode := .Reporting, RequestedParameters := mparams })

/-- Arguments of one request build. -/
structure RequestSpec where
  node : Nat
  attr : Nat
  mfilter : Option EventFilter
  queuesize : Nat
deriving Repr, DecidableEq

/-- A sequence of monitored-item-request builds on one subscription,
threading the handle counter (the loop of `_subscribe`, and any
sequence of subscribe calls). -/
def buildSeq : Subscription → List RequestSpec → Subscription × List MonitoredItemCreateRequest
  | st, [] => (st, [])
  | st, s :: rest =>
    let (st1, mir) := _make_monitored_item_request st s.node s.attr s.mfilter s.queuesize
    let (st2, mirs) := buildSeq st1 rest
    (st2, mir :: mirs)

/-- Argument shape of `_subscribe`: a single target or a collection
(the `type(nodes) in (list, tuple)` test). -/
inductive NodesArg where
  | one (node : Nat)
  | many (nodes : List Nat)
deriving Repr, DecidableEq

/-- Return shape of `_subscribe`: a single server handle, a single
status code (only when a good status arrives typed as a status), or the
parallel result list. -/
inductive SubscribeResult where
  | single (mid : Nat)
  | singleStatus (sc : StatusCode)
  | many (mids : List MIResult)
deriving Repr, DecidableEq

/-- Translation of `Subscription._subscribe`: wrap a single target into
a list, build one request per target, create the monitored items; for a
collection return the parallel result list as is, for a single target
check a status-typed first result (raising its bad status) and return
the first result. -/
def _subscribe (st : Subscription) (nodes : NodesArg) (attr : Nat)
    (mfilter : Option EventFilter) (queuesize : Nat)
    (results : List MonitoredItemCreateResult) :
    Except PyError (Subscription × SubscribeResult) :=
  let arg : List Nat × Bool :=
    match nodes with
    | .one n => ([n], false)
    | .many ns => (ns, true)
  let (st1, mirs) := buildSeq st (arg.1.map fun n => ⟨n, attr, mfilter, queuesize⟩)
  match create_monitored_items st1 mirs results with
  | .error e => .error e
  | .ok (st2, mids) =>
    if arg.2 then
      .ok (st2, .many mids)
    else
      match mids.get? 0 with
      | none => .error .indexError
      | some (MIResult.status sc) =>
        if sc.isGood then .ok (st2, .singleStatus sc) else .error (.badStatus sc)
      | some (MIResult.mid m) => .ok (st2, .single m)

/-- Translation of `Subscription.subscribe_data_change`: no filter, no
replacement queueing. -/
def subscribe_data_change (st : Subscription) (nodes : NodesArg) (attr : Nat)
    (results : List MonitoredItemCreateResult) :
    Except PyError (Subscription × SubscribeResult) :=
  _subscribe st nodes attr none 0 results

/-- The parallel result list `create_monitored_items` returns for a
given server answer: the status code for a non-good slot, the assigned
monitored-item id otherwise. -/
def midsOf (results : List MonitoredItemCreateResult) : List MIResult :=
  results.map fun r =>
    if r.StatusCode.isGood then MIResult.mid r.MonitoredItemId else MIResult.status r.StatusCode

/-- A trace with the log emissions removed: what remains are the
callback invocations and the publish requests, the behaviour an
application observes. -/
def stripLogs (tr : List Action) : List Action := tr.filter (fun a => !a.isLog)

/-- Sample handler implementing every callback. -/
def sampleHandler : Handler := ⟨true, true, true, true, true⟩

/-- Sample oracle: no application callback ever raises. -/
def noRaise : Oracle := fun _ => false

/-- Sample subscription parameters. -/
def sampleParams : SubscriptionParameters := ⟨500⟩

/-- Sample freshly constructed subscription: empty registry, handle
counter at its initial value 200. -/
def sampleSub : Subscription := ⟨7, 200, sampleParams, [], sampleHandler⟩

/-- Sample registry entry with a confirmed server handle. -/
def sampleItem (ch sh : Nat) : SubscriptionItemData := ⟨10, ch, some sh, 13, none⟩

/-- Sample subscription with two confirmed monitored items. -/
def sampleSubWithItems : Subscription :=
  ⟨7, 202, sampleParams, [(201, sampleItem 201 77), (202, sampleItem 202 78)], sampleHandler⟩

/-! Registry lemmas: the dict operations seen through `rLookup`. -/

theorem rLookup_rInsert_self (reg : Registry) (k : Nat) (v : SubscriptionItemData) :
    rLookup (rInsert reg k v) k = some v := by
  induction reg with
  | nil => simp [rInsert, rLookup]
  | cons p rest ih =>
    by_cases h : p.1 = k
    · simp [rInsert, rLookup, h]
    · simp [rInsert, rLookup, h, ih]

theorem rLookup_rInsert_ne (reg : Registry) (k h : Nat) (v : SubscriptionItemData)
    (hne : h ≠ k) : rLookup (rInsert reg k v) h = rLookup reg h := by
  have hkh : ¬ k = h := fun e => hne e.symm
  induction reg with
  | nil => simp [rInsert, rLookup, hkh]
  | cons p rest ih =>
    by_cases hp : p.1 = k
    · have hph : ¬ p.1 = h := by rw [hp]; exact hkh
      simp [rInsert, rLookup, hp, hkh, hph]
    · by_cases hh : p.1 = h <;> simp [rInsert, rLookup, hp, hh, hkh, ih, hne]

theorem rLookup_rErase_ne (reg : Registry) (k h : Nat) (hne : h ≠ k) :
    rLookup (rErase reg k) h = rLookup reg h := by
  have hkh : ¬ k = h := fun e => hne e.symm
  induction reg with
  | nil => simp [rErase]
  | cons p rest ih =>
    by_cases hp : p.1 = k
    · have hph : ¬ p.1 = h := by rw [hp]; exact hkh
      simp [rErase, rLookup, hp, hkh, hph]
    · by_cases hh : p.1 = h <;> simp [rErase, rLookup, hp, hh, hkh, hne, ih]

theorem rLookup_eq_none_of_not_mem (reg : Registry) (k : Nat) (h : k ∉ regKeys reg) :
    rLookup reg k = none := by
  induction reg with
  | nil => simp [rLookup]
  | cons p rest ih =>
    simp only [regKeys, List.map_cons, List.mem_cons, not_or] at h
    have : ¬ p.1 = k := fun e => h.1 e.symm
    simp only [rLookup, this, if_false]
    exact ih (by simpa [regKeys] using h.2)

theorem rLookup_rErase_self (reg : Registry) (k : Nat) (hnd : (regKeys reg).Nodup) :
    rLookup (rErase reg k) k = none := by
  induction reg with
  | nil => simp [rErase, rLookup]
  | cons p rest ih =>
    simp only [regKeys, List.map_cons, List.nodup_cons] at hnd
    by_cases hp : p.1 = k
    · simp only [rErase, hp, if_true]
      exact rLookup_eq_none_of_not_mem rest k (by rw [← hp]; exact hnd.1)
    · simp only [rErase, rLookup, hp, if_false]
      exact ih hnd.2

theorem regKeys_rInsert_mem (reg : Registry) (k : Nat) (v : SubscriptionItemData)
    (h : k ∈ regKeys reg) : regKeys (rInsert reg k v) = regKeys reg := by
  induction reg with
  | nil => simp [regKeys] at h
  | cons p rest ih =>
    by_cases hp : p.1 = k
    · simp [rInsert, regKeys, hp]
    · have hk : k ∈ regKeys rest := by
        simp only [regKeys, List.map_cons, List.mem_cons] at h
        exact h.resolve_left (fun e => hp e.symm)
      simp only [rInsert, hp, if_false, regKeys, List.map_cons]
      exact congrArg (List.cons p.1) (ih hk)

theorem regKeys_rInsert_not_mem (reg : Registry) (k : Nat) (v : SubscriptionItemData)
    (h : k ∉ regKeys reg) : regKeys (rInsert reg k v) = regKeys reg ++ [k] := by
  induction reg with
  | nil => simp [rInsert, regKeys]
  | cons p rest ih =>
    simp only [regKeys, List.map_cons, List.mem_cons, not_or] at h
    have hp : ¬ p.1 = k := fun e => h.1 e.symm
    simp only [rInsert, hp, if_false, regKeys, List.map_cons, List.cons_append]
    exact congrArg (List.cons p.1) (ih h.2)

theorem regKeys_rInsert_nodup (reg : Registry) (k : Nat) (v : SubscriptionItemData)
    (hnd : (regKeys reg).Nodup) : (regKeys (rInsert reg k v)).Nodup := by
  by_cases h : k ∈ regKeys reg
  · rw [regKeys_rInsert_mem reg k v h]; exact hnd
  · rw [regKeys_rInsert_not_mem reg k v h]
    simp only [List.nodup_append, List.nodup_cons, List.nodup_nil, List.disjoint_singleton]
    exact ⟨hnd, by simp, h⟩

theorem regKeys_rErase_sublist (reg : Registry) (k : Nat) :
    List.Sublist (regKeys (rErase reg k)) (regKeys reg) := by
  induction reg with
  | nil => simp [rErase, regKeys]
  | cons p rest ih =>
    by_cases hp : p.1 = k
    · simp only [rErase, hp, if_true, regKeys, List.map_cons]
      exact List.sublist_cons_self k (List.map Prod.fst rest)
    · simp only [rErase, hp, if_false, regKeys, List.map_cons]
      exact ih.cons₂ p.1

theorem regKeys_rErase_nodup (reg : Registry) (k : Nat)
    (hnd : (regKeys reg).Nodup) : (regKeys (rErase reg k)).Nodup :=
  hnd.sublist (regKeys_rErase_sublist reg k)

/-! Lemmas about the placeholder-insertion pass. -/

theorem insertPlaceholders_cons (reg : Registry) (mi : MonitoredItemCreateRequest)
    (rest : List MonitoredItemCreateRequest) :
    insertPlaceholders reg (mi :: rest) =
      insertPlaceholders (rInsert reg mi.RequestedParameters.ClientHandle (placeholderFor mi))
        rest := rfl

theorem insertPlaceholders_not_mem (items : List MonitoredItemCreateRequest) (reg : Registry)
    (h : Nat) (hno : ∀ mi ∈ items, mi.RequestedParameters.ClientHandle ≠ h) :
    rLookup (insertPlaceholders reg items) h = rLookup reg h := by
  induction items generalizing reg with
  | nil => rfl
  | cons mi rest ih =>
    rw [insertPlaceholders_cons,
      ih _ (fun mj hmj => hno mj (List.mem_cons_of_mem mi hmj)),
      rLookup_rInsert_ne _ _ _ _ (fun e => hno mi (List.mem_cons_self mi rest) e.symm)]

theorem insertPlaceholders_mem (items : List MonitoredItemCreateRequest) (reg : Registry)
    (h : Nat) (hmem : ∃ mi ∈ items, mi.RequestedParameters.ClientHandle = h) :
    ∃ d, rLookup (insertPlaceholders reg items) h = some d ∧ d.server_handle = none := by
  induction items generalizing reg with
  | nil => simp at hmem
  | cons mi rest ih =>
    rw [insertPlaceholders_cons]
    by_cases hr : ∃ mj ∈ rest, mj.RequestedParameters.ClientHandle = h
    · exact ih _ hr
    · have hmi : mi.RequestedParameters.ClientHandle = h := by
        rcases hmem with ⟨mj, hmj, hjh⟩
        rcases List.mem_cons.mp hmj with rfl | hmem'
        · exact hjh
        · exact absurd ⟨mj, hmem', hjh⟩ hr
      push_neg at hr
      rw [insertPlaceholders_not_mem rest _ h hr, ← hmi]
      exact ⟨placeholderFor mi, rLookup_rInsert_self reg _ _, rfl⟩

theorem insertPlaceholders_nodup (items : List MonitoredItemCreateRequest) (reg : Registry)
    (hnd : (regKeys reg).Nodup) : (regKeys (insertPlaceholders reg items)).Nodup := by
  induction items generalizing reg with
  | nil => exact hnd
  | cons mi rest ih =>
    rw [insertPlaceholders_cons]
    exact ih _ (regKeys_rInsert_nodup _ _ _ hnd)

theorem nodup_handles_pairwise {items : List MonitoredItemCreateRequest}
    (h : (items.map fun mi => mi.RequestedParameters.ClientHandle).Nodup) :
    ∀ i j mi mj, i ≠ j → items.get? i = some mi → items.get? j = some mj →
      mi.RequestedParameters.ClientHandle ≠ mj.RequestedParameters.ClientHandle := by
  induction items with
  | nil => intro i j mi mj _ hi _; simp at hi
  | cons a rest ih =>
    simp only [List.map_cons, List.nodup_cons] at h
    intro i j mi mj hij hi hj
    match i, j with
    | 0, 0 => exact absurd rfl hij
    | 0, j + 1 =>
      have hmi : a = mi := by simpa using hi
      have hmem : mj ∈ rest := List.get?_mem (by simpa using hj)
      intro e
      apply h.1
      rw [hmi, e]
      exact List.mem_map_of_mem _ hmem
    | i + 1, 0 =>
      have hmj : a = mj := by simpa using hj
      have hmem : mi ∈ rest := List.get?_mem (by simpa using hi)
      intro e
      apply h.1
      rw [hmj, ← e]
      exact List.mem_map_of_mem _ hmem
    | i + 1, j + 1 =>
      exact ih h.2 i j mi mj (fun e => hij (by rw [e])) (by simpa using hi) (by simpa using hj)

/-- Full behaviour of the result-processing pass, threaded from index
`idx`: given pairwise distinct request handles and one result per
remaining request, with every remaining handle present in the registry,
the pass succeeds, returns the parallel result list, changes no entry
of another handle, and leaves each processed handle deleted (bad
status) or filled in with the assigned id (good status). -/
theorem processResults_spec (items : List MonitoredItemCreateRequest)
    (hdist : ∀ i j mi mj, i ≠ j → items.get? i = some mi → items.get? j = some mj →
      mi.RequestedParameters.ClientHandle ≠ mj.RequestedParameters.ClientHandle)
    (results : List MonitoredItemCreateResult) (idx : Nat) (reg : Registry)
    (hlen : idx + results.length = items.length)
    (hnd : (regKeys reg).Nodup)
    (hpres : ∀ j mi, idx ≤ j → items.get? j = some mi →
      ∃ d, rLookup reg mi.RequestedParameters.ClientHandle = some d) :
    ∃ reg', processResults items reg idx results = .ok (reg', midsOf results) ∧
      (∀ h, (∀ j mi, idx ≤ j → items.get? j = some mi →
          mi.RequestedParameters.ClientHandle ≠ h) →
        rLookup reg' h = rLookup reg h) ∧
      (∀ k r mi, results.get? k = some r → items.get? (idx + k) = some mi →
        (r.StatusCode.isGood = true →
          ∃ d, rLookup reg' mi.RequestedParameters.ClientHandle = some d ∧
            d.server_handle = some r.MonitoredItemId) ∧
        (r.StatusCode.isGood = false →
          rLookup reg' mi.RequestedParameters.ClientHandle = none)) := by
  induction results generalizing idx reg with
  | nil =>
    refine ⟨reg, rfl, fun h _ => rfl, ?_⟩
    intro k r mi hk
    simp at hk
  | cons result rest ih =>
    have hlt : idx < items.length := by
      simp only [List.length_cons] at hlen; omega
    obtain ⟨mi, hmi⟩ : ∃ mi, items.get? idx = some mi :=
      ⟨items.get ⟨idx, hlt⟩, List.get?_eq_get hlt⟩
    have hmig : items[idx]? = some mi := by rw [← List.get?_eq_getElem?]; exact hmi
    obtain ⟨d₀, hd₀⟩ := hpres idx mi le_rfl hmi
    have hchne : ∀ j mj, idx + 1 ≤ j → items.get? j = some mj →
        mj.RequestedParameters.ClientHandle ≠ mi.RequestedParameters.ClientHandle :=
      fun j mj hj hmj => hdist j idx mj mi (by omega) hmj hmi
    cases hg : result.StatusCode.isGood with
    | true =>
      set reg₂ := rInsert reg mi.RequestedParameters.ClientHandle
        { d₀ with server_handle := some result.MonitoredItemId } with hreg₂
      have hnd₂ : (regKeys reg₂).Nodup := regKeys_rInsert_nodup _ _ _ hnd
      have hpres₂ : ∀ j mj, idx + 1 ≤ j → items.get? j = some mj →
          ∃ d, rLookup reg₂ mj.RequestedParameters.ClientHandle = some d := by
        intro j mj hj hmj
        rw [hreg₂, rLookup_rInsert_ne _ _ _ _ (hchne j mj hj hmj)]
        exact hpres j mj (by omega) hmj
      obtain ⟨reg', hrun, hframe, hspec⟩ :=
        ih (idx + 1) reg₂ (by simp only [List.length_cons] at hlen; omega) hnd₂ hpres₂
      refine ⟨reg', ?_, ?_, ?_⟩
      · simp [processResults, hmig, hg, hd₀, hrun, midsOf, bind, Except.bind]
      · intro h hh
        rw [hframe h (fun j mj hj hmj => hh j mj (by omega) hmj), hreg₂,
          rLookup_rInsert_ne _ _ _ _ (hh idx mi le_rfl hmi).symm]
      · intro k r' mi' hk hmi'
        match k with
        | 0 =>
          have hr' : r' = result := by simpa using hk.symm
          have hmieq : mi' = mi := by
            rw [Nat.add_zero] at hmi'
            rw [hmi] at hmi'
            exact (Option.some_inj.mp hmi').symm
          subst hr'; subst hmieq
          refine ⟨fun _ => ?_, (fun hfalse => by simp [hg] at hfalse)⟩
          rw [hframe mi'.RequestedParameters.ClientHandle
            (fun j mj hj hmj => hchne j mj hj hmj), hreg₂, rLookup_rInsert_self]
          exact ⟨_, rfl, rfl⟩
        | k + 1 =>
          have hk' : rest.get? k = some r' := by simpa using hk
          have hmi'' : items.get? (idx + 1 + k) = some mi' := by
            rw [show idx + 1 + k = idx + (k + 1) by omega]
            exact hmi'
          exact hspec k r' mi' hk' hmi''
    | false =>
      set reg₂ := rErase reg mi.RequestedParameters.ClientHandle with hreg₂
      have hnd₂ : (regKeys reg₂).Nodup := regKeys_rErase_nodup _ _ hnd
      have hpres₂ : ∀ j mj, idx + 1 ≤ j → items.get? j = some mj →
          ∃ d, rLookup reg₂ mj.RequestedParameters.ClientHandle = some d := by
        intro j mj hj hmj
        rw [hreg₂, rLookup_rErase_ne _ _ _ (hchne j mj hj hmj)]
        exact hpres j mj (by omega) hmj
      obtain ⟨reg', hrun, hframe, hspec⟩ :=
        ih (idx + 1) reg₂ (by simp only [List.length_cons] at hlen; omega) hnd₂ hpres₂
      refine ⟨reg', ?_, ?_, ?_⟩
      · simp [processResults, hmig, hg, hd₀, hrun, midsOf, bind, Except.bind]
      · intro h hh
        rw [hframe h (fun j mj hj hmj => hh j mj (by omega) hmj), hreg₂,
          rLookup_rErase_ne _ _ _ (hh idx mi le_rfl hmi).symm]
      · intro k r' mi' hk hmi'
        match k with
        | 0 =>
          have hr' : r' = result := by simpa using hk.symm
          have hmieq : mi' = mi := by
            rw [Nat.add_zero] at hmi'
            rw [hmi] at hmi'
            exact (Option.some_inj.mp hmi').symm
          subst hr'; subst hmieq
          refine ⟨(fun htrue => by simp [hg] at htrue), fun _ => ?_⟩
          rw [hframe mi'.RequestedParameters.ClientHandle
            (fun j mj hj hmj => hchne j mj hj hmj), hreg₂, rLookup_rErase_self _ _ hnd]
        | k + 1 =>
          have hk' : rest.get? k = some r' := by simpa using hk
          have hmi'' : items.get? (idx + 1 + k) = some mi' := by
            rw [show idx + 1 + k = idx + (k + 1) by omega]
            exact hmi'
          exact hspec k r' mi' hk' hmi''

/-! Trace-shape lemmas: no dispatch path emits a publish action, and
the non-log part of every trace is independent of whether the
application callbacks raise. -/

theorem dispatchTry_no_pub (o : Oracle) (a : Action) (h : a.isPub = false) :
    ∀ b ∈ dispatchTry o a, b.isPub = false := by
  intro b hb
  unfold dispatchTry at hb
  by_cases ho : o a <;> simp [ho] at hb
  · rcases hb with rfl | rfl
    · exact h
    · rfl
  · rw [hb]; exact h

theorem callDatachangeItem_no_pub (o : Oracle) (st : Subscription)
    (item : MonitoredItemNotification) :
    ∀ b ∈ callDatachangeItem o st item, b.isPub = false := by
  intro b hb
  unfold callDatachangeItem at hb
  split at hb
  · simp at hb; rw [hb]; rfl
  · split at hb
    · refine dispatchTry_no_pub o _ ?_ b hb; rfl
    · split at hb
      · rcases List.mem_cons.mp hb with rfl | hb'
        · rfl
        · refine dispatchTry_no_pub o _ ?_ b hb'; rfl
      · simp at hb; rw [hb]; rfl

theorem call_datachange_no_pub (o : Oracle) (st : Subscription) (d : DataChangeNotification) :
    ∀ b ∈ _call_datachange o st d, b.isPub = false := by
  intro b hb
  unfold _call_datachange at hb
  rcases List.mem_flatten.mp hb with ⟨l, hl, hbl⟩
  rcases List.mem_map.mp hl with ⟨item, _, rfl⟩
  exact callDatachangeItem_no_pub o st item b hbl

theorem callEventOne_no_pub (o : Oracle) (st : Subscription) (ev : EventFieldList)
    (t : List Action) (h : callEventOne o st ev = .ok t) :
    ∀ b ∈ t, b.isPub = false := by
  intro b hb
  unfold callEventOne at h
  split at h
  · cases h
  · split at h
    · cases h
    · split at h
      · cases h
        refine dispatchTry_no_pub o _ ?_ b hb; rfl
      · split at h
        · cases h
          refine dispatchTry_no_pub o _ ?_ b hb; rfl
        · cases h
          simp at hb; rw [hb]; rfl

theorem call_event_no_pub (o : Oracle) (st : Subscription) (evs : List EventFieldList)
    (t : List Action) (h : _call_event o st evs = .ok t) :
    ∀ b ∈ t, b.isPub = false := by
  induction evs generalizing t with
  | nil =>
    cases h
    intro b hb; cases hb
  | cons ev rest ih =>
    cases h1 : callEventOne o st ev with
    | error e => simp [_call_event, h1] at h
    | ok t1 =>
      cases h2 : _call_event o st rest with
      | error e => simp [_call_event, h1, h2] at h
      | ok t2 =>
        simp only [_call_event, h1, h2, Except.ok.injEq] at h
        subst h
        intro b hb
        rcases List.mem_append.mp hb with hb1 | hb2
        · exact callEventOne_no_pub o st ev t1 h1 b hb1
        · exact ih t2 h2 b hb2

theorem call_status_no_pub (o : Oracle) (st : Subscription) (s : StatusChangeNotification) :
    ∀ b ∈ _call_status o st s, b.isPub = false := by
  intro b hb
  unfold _call_status at hb
  split at hb
  · refine dispatchTry_no_pub o _ ?_ b hb; rfl
  · simp at hb; rw [hb]; rfl

theorem processOne_no_pub (o : Oracle) (st : Subscription) (n : NotificationData)
    (t : List Action) (h : processOne o st n = .ok t) :
    ∀ b ∈ t, b.isPub = false := by
  cases n with
  | dataChange d =>
    cases h
    exact call_datachange_no_pub o st d
  | eventList e =>
    exact call_event_no_pub o st e.Events t h
  | statusChange s =>
    cases h
    exact call_status_no_pub o st s
  | unsupported =>
    cases h
    intro b hb
    simp at hb; rw [hb]; rfl

theorem processNotifs_no_pub (o : Oracle) (st : Subscription) (ns : List NotificationData)
    (t : List Action) (h : processNotifs o st ns = .ok t) :
    ∀ b ∈ t, b.isPub = false := by
  induction ns generalizing t with
  | nil =>
    cases h
    intro b hb; cases hb
  | cons n rest ih =>
    cases h1 : processOne o st n with
    | error e => simp [processNotifs, h1] at h
    | ok t1 =>
      cases h2 : processNotifs o st rest with
      | error e => simp [processNotifs, h1, h2] at h
      | ok t2 =>
        simp only [processNotifs, h1, h2, Except.ok.injEq] at h
        subst h
        intro b hb
        rcases List.mem_append.mp hb with hb1 | hb2
        · exact processOne_no_pub o st n t1 h1 b hb1
        · exact ih t2 h2 b hb2

theorem stripLogs_append (l1 l2 : List Action) :
    stripLogs (l1 ++ l2) = stripLogs l1 ++ stripLogs l2 :=
  List.filter_append l1 l2

theorem stripLogs_logInfo_cons (l : List Action) :
    stripLogs (Action.logInfo :: l) = stripLogs l := by
  simp [stripLogs, Action.isLog]

theorem stripLogs_logWarning_cons (l : List Action) :
    stripLogs (Action.logWarning :: l) = stripLogs l := by
  simp [stripLogs, Action.isLog]

theorem stripLogs_nil : stripLogs [] = [] := rfl

theorem stripLogs_cons (a : Action) (l : List Action) :
    stripLogs (a :: l) = if a.isLog then stripLogs l else a :: stripLogs l := by
  cases h : a.isLog <;> simp [stripLogs, List.filter_cons, h]

theorem isLog_logException : Action.logException.isLog = true := rfl

theorem dispatchTry_strip (o : Oracle) (a : Action) :
    stripLogs (dispatchTry o a) = stripLogs [a] := by
  unfold dispatchTry
  cases ho : o a
  · simp
  · simp only [if_true]
    rw [stripLogs_cons, stripLogs_cons, stripLogs_cons, stripLogs_nil, isLog_logException]
    simp

theorem callDatachangeItem_strip (o1 o2 : Oracle) (st : Subscription)
    (item : MonitoredItemNotification) :
    stripLogs (callDatachangeItem o1 st item) = stripLogs (callDatachangeItem o2 st item) := by
  unfold callDatachangeItem
  cases rLookup st.monitoreditems_map item.ClientHandle with
  | none => rfl
  | some data =>
    cases h1 : st.handler.hasDatachangeNotification with
    | true => simp only [h1, if_true]; rw [dispatchTry_strip, dispatchTry_strip]
    | false =>
      simp only [h1, Bool.false_eq_true, if_false]
      cases h2 : st.handler.hasDataChange with
      | true =>
        simp only [h2, if_true]
        rw [stripLogs_logWarning_cons, stripLogs_logWarning_cons,
          dispatchTry_strip, dispatchTry_strip]
      | false => rfl

theorem call_datachange_strip (o1 o2 : Oracle) (st : Subscription)
    (d : DataChangeNotification) :
    stripLogs (_call_datachange o1 st d) = stripLogs (_call_datachange o2 st d) := by
  unfold _call_datachange
  induction d.MonitoredItems with
  | nil => rfl
  | cons item rest ih =>
    simp only [List.map_cons, List.flatten_cons]
    rw [stripLogs_append, stripLogs_append, ih, callDatachangeItem_strip o1 o2 st item]

theorem call_status_strip (o1 o2 : Oracle) (st : Subscription)
    (s : StatusChangeNotification) :
    stripLogs (_call_status o1 st s) = stripLogs (_call_status o2 st s) := by
  unfold _call_status
  cases h1 : st.handler.hasStatusChange with
  | true => simp only [h1, if_true]; rw [dispatchTry_strip, dispatchTry_strip]
  | false => rfl

theorem exceptMap_eq_cases {α β γ : Type} (f : α → γ) (x y : Except β α)
    (h : Except.map f x = Except.map f y) :
    (∃ e, x = .error e ∧ y = .error e) ∨
      (∃ a b, x = .ok a ∧ y = .ok b ∧ f a = f b) := by
  cases x with
  | error e =>
    cases y with
    | error e2 =>
      simp only [Except.map, Except.error.injEq] at h
      exact Or.inl ⟨e, rfl, by rw [h]⟩
    | ok b => simp [Except.map] at h
  | ok a =>
    cases y with
    | error e2 => simp [Except.map] at h
    | ok b =>
      simp only [Except.map, Except.ok.injEq] at h
      exact Or.inr ⟨a, b, rfl, rfl, h⟩

theorem callEventOne_strip (o1 o2 : Oracle) (st : Subscription) (ev : EventFieldList) :
    Except.map stripLogs (callEventOne o1 st ev) =
      Except.map stripLogs (callEventOne o2 st ev) := by
  unfold callEventOne
  cases rLookup st.monitoreditems_map ev.ClientHandle with
  | none => rfl
  | some data =>
    cases hf : data.mfilter with
    | none => simp [hf]
    | some f =>
      cases h1 : st.handler.hasEventNotification with
      | true =>
        simp only [hf, h1, if_true, Except.map]
        rw [dispatchTry_strip, dispatchTry_strip]
      | false =>
        cases h2 : st.handler.hasEvent with
        | true =>
          simp only [hf, h1, Bool.false_eq_true, if_false, h2, if_true, Except.map]
          rw [dispatchTry_strip, dispatchTry_strip]
        | false => simp [hf, h1, h2]

theorem call_event_strip (o1 o2 : Oracle) (st : Subscription) (evs : List EventFieldList) :
    Except.map stripLogs (_call_event o1 st evs) =
      Except.map stripLogs (_call_event o2 st evs) := by
  induction evs with
  | nil => rfl
  | cons ev rest ih =>
    rcases exceptMap_eq_cases _ _ _ (callEventOne_strip o1 o2 st ev) with
      ⟨e, h1, h2⟩ | ⟨t1, t2, h1, h2, ht⟩
    · simp [_call_event, h1, h2, Except.map]
    · rcases exceptMap_eq_cases _ _ _ ih with ⟨e, hr1, hr2⟩ | ⟨ts1, ts2, hr1, hr2, hts⟩
      · simp [_call_event, h1, h2, hr1, hr2, Except.map]
      · simp only [_call_event, h1, h2, hr1, hr2, Except.map, Except.ok.injEq]
        rw [stripLogs_append, stripLogs_append, ht, hts]

theorem processOne_strip (o1 o2 : Oracle) (st : Subscription) (n : NotificationData) :
    Except.map stripLogs (processOne o1 st n) = Except.map stripLogs (processOne o2 st n) := by
  cases n with
  | dataChange d =>
    simp only [processOne, Except.map]
    rw [call_datachange_strip o1 o2 st d]
  | eventList e => exact call_event_strip o1 o2 st e.Events
  | statusChange s =>
    simp only [processOne, Except.map]
    rw [call_status_strip o1 o2 st s]
  | unsupported => rfl

theorem processNotifs_strip (o1 o2 : Oracle) (st : Subscription)
    (ns : List NotificationData) :
    Except.map stripLogs (processNotifs o1 st ns) =
      Except.map stripLogs (processNotifs o2 st ns) := by
  induction ns with
  | nil => rfl
  | cons n rest ih =>
    rcases exceptMap_eq_cases _ _ _ (processOne_strip o1 o2 st n) with
      ⟨e, h1, h2⟩ | ⟨t1, t2, h1, h2, ht⟩
    · simp [processNotifs, h1, h2, Except.map]
    · rcases exceptMap_eq_cases _ _ _ ih with ⟨e, hr1, hr2⟩ | ⟨ts1, ts2, hr1, hr2, hts⟩
      · simp [processNotifs, h1, h2, hr1, hr2, Except.map]
      · simp only [processNotifs, h1, h2, hr1, hr2, Except.map, Except.ok.injEq]
        rw [stripLogs_append, stripLogs_append, ht, hts]

theorem publish_callback_strip (o1 o2 : Oracle) (st : Subscription) (pr : PublishResult) :
    Except.map stripLogs (publish_callback o1 st pr) =
      Except.map stripLogs (publish_callback o2 st pr) := by
  unfold publish_callback
  rcases exceptMap_eq_cases _ _ _
      (processNotifs_strip o1 o2 st pr.NotificationMessage.NotificationData) with
    ⟨e, h1, h2⟩ | ⟨t1, t2, h1, h2, ht⟩
  · simp [h1, h2, Except.map]
  · simp only [h1, h2, Except.map, Except.ok.injEq]
    rw [List.cons_append, List.cons_append, stripLogs_logInfo_cons, stripLogs_logInfo_cons,
      stripLogs_append, stripLogs_append, ht]

/-! Lemmas about the unsubscribe registry scan. -/

theorem removeFirst_no_match (reg : Registry) (h : Nat)
    (hno : ∀ p ∈ reg, p.2.server_handle ≠ some h) :
    removeFirstByServerHandle reg h = reg := by
  induction reg with
  | nil => rfl
  | cons p rest ih =>
    have hp := hno p (List.mem_cons_self p rest)
    simp only [removeFirstByServerHandle, if_neg hp]
    rw [ih (fun q hq => hno q (List.mem_cons_of_mem p hq))]

theorem filter_no_match (reg : Registry) (h : Nat)
    (hno : ∀ p ∈ reg, p.2.server_handle ≠ some h) :
    (reg.filter fun p => !decide (p.2.server_handle = some h)) = reg := by
  rw [List.filter_eq_self]
  intro p hp
  simp [hno p hp]

theorem removeFirst_eq_filter (reg : Registry) (h : Nat)
    (hle : (reg.filter fun p => decide (p.2.server_handle = some h)).length ≤ 1) :
    removeFirstByServerHandle reg h =
      reg.filter fun p => !decide (p.2.server_handle = some h) := by
  induction reg with
  | nil => rfl
  | cons p rest ih =>
    by_cases hp : p.2.server_handle = some h
    · have hrest : ∀ q ∈ rest, q.2.server_handle ≠ some h := by
        rw [List.filter_cons] at hle
        simp [hp] at hle
        exact fun q hq => hle q.1 q.2 hq
      simp only [removeFirstByServerHandle, if_pos hp]
      rw [List.filter_cons]
      simp only [hp, decide_eq_true_eq]
      simp
      exact (filter_no_match rest h hrest).symm
    · have hle' : (rest.filter fun p => decide (p.2.server_handle = some h)).length ≤ 1 := by
        rw [List.filter_cons] at hle
        simp [hp] at hle
        exact hle
      simp only [removeFirstByServerHandle, if_neg hp]
      rw [List.filter_cons]
      simp [hp]
      exact ih hle'

/-! Lemmas about the request-build sequence. -/

theorem buildSeq_cons (st : Subscription) (s : RequestSpec) (rest : List RequestSpec) :
    buildSeq st (s :: rest) =
      ((buildSeq { st with client_handle := st.client_handle + 1 } rest).1,
        (_make_monitored_item_request st s.node s.attr s.mfilter s.queuesize).2 ::
          (buildSeq { st with client_handle := st.client_handle + 1 } rest).2) := rfl

theorem buildSeq_spec (specs : List RequestSpec) : ∀ (st : Subscription),
    ((buildSeq st specs).2.map fun mi => mi.RequestedParameters.ClientHandle).Pairwise (· < ·) ∧
    (∀ a ∈ (buildSeq st specs).2.map fun mi => mi.RequestedParameters.ClientHandle,
      st.client_handle < a) ∧
    (specs ≠ [] →
      ((buildSeq st specs).2.map fun mi => mi.RequestedParameters.ClientHandle).head? =
        some (st.client_handle + 1)) ∧
    (buildSeq st specs).1.client_handle = st.client_handle + specs.length ∧
    (buildSeq st specs).2.length = specs.length ∧
    (buildSeq st specs).1.monitoreditems_map = st.monitoreditems_map := by
  induction specs with
  | nil =>
    intro st
    refine ⟨List.Pairwise.nil, by simp [buildSeq], by simp, by simp [buildSeq], by simp [buildSeq],
      by simp [buildSeq]⟩
  | cons s rest ih =>
    intro st
    obtain ⟨ihp, ihgt, _, ihc, ihl, ihm⟩ := ih { st with client_handle := st.client_handle + 1 }
    rw [buildSeq_cons]
    refine ⟨?_, ?_, ?_, ?_, ?_, ?_⟩
    · simp only [List.map_cons, List.pairwise_cons]
      exact ⟨fun a ha => by simpa using ihgt a ha, ihp⟩
    · intro a ha
      simp only [List.map_cons, List.mem_cons] at ha
      rcases ha with rfl | ha
      · show st.client_handle < st.client_handle + 1
        omega
      · have := ihgt a ha
        simp at this
        omega
    · intro _
      rfl
    · simp only
      rw [ihc]
      simp only [List.length_cons]
      omega
    · simp only [List.length_cons, List.length_cons]
      rw [ihl]
    · exact ihm

/-- Summary of `create_monitored_items` under its documented
preconditions (pairwise distinct client handles, one server result per
request, registry keys unique): the call succeeds, returns the parallel
result list, and for each position leaves the entry deleted or filled
in according to the result status. -/
theorem create_monitored_items_spec (st : Subscription)
    (items : List MonitoredItemCreateRequest) (results : List MonitoredItemCreateResult)
    (hnd : (regKeys st.monitoreditems_map).Nodup)
    (hhd : (items.map fun mi => mi.RequestedParameters.ClientHandle).Nodup)
    (hlen : results.length = items.length) :
    ∃ st', create_monitored_items st items results = .ok (st', midsOf results) ∧
      (∀ k r mi, results.get? k = some r → items.get? k = some mi →
        (r.StatusCode.isGood = true →
          ∃ d, rLookup st'.monitoreditems_map mi.RequestedParameters.ClientHandle = some d ∧
            d.server_handle = some r.MonitoredItemId) ∧
        (r.StatusCode.isGood = false →
          rLookup st'.monitoreditems_map mi.RequestedParameters.ClientHandle = none)) := by
  have hdist := nodup_handles_pairwise hhd
  have hnd1 := insertPlaceholders_nodup items st.monitoreditems_map hnd
  have hpres : ∀ j mi, 0 ≤ j → items.get? j = some mi →
      ∃ d, rLookup (insertPlaceholders st.monitoreditems_map items)
        mi.RequestedParameters.ClientHandle = some d := by
    intro j mi _ hj
    obtain ⟨d, hd, _⟩ := insertPlaceholders_mem items st.monitoreditems_map _
      ⟨mi, List.get?_mem hj, rfl⟩
    exact ⟨d, hd⟩
  obtain ⟨reg', hrun, _, hspec⟩ :=
    processResults_spec items hdist results 0 _ (by omega) hnd1 hpres
  refine ⟨{ st with monitoreditems_map := reg' }, ?_, ?_⟩
  · simp [create_monitored_items, hrun]
  · intro k r mi hk hmi
    exact hspec k r mi hk (by simpa using hmi)

/-! Claim theorems. -/

/-- C1: for every call to `create_monitored_items`, before the batch is
sent a registry entry keyed by each request client handle is present
with its server handle unset; after the results are processed, for each
position, a non-good status leaves the entry deleted and the status
code reported at that position, a good status leaves the entry filled
in with the server-assigned monitored-item id, reported at that
position; the returned list is parallel to the input.  Stated under the
documented preconditions: unique client handles, one server result per
request, well-formed registry keys. -/
theorem C1_create_registers_then_fills (st : Subscription)
    (items : List MonitoredItemCreateRequest) (results : List MonitoredItemCreateResult)
    (hnd : (regKeys st.monitoreditems_map).Nodup)
    (hhd : (items.map fun mi => mi.RequestedParameters.ClientHandle).Nodup)
    (hlen : results.length = items.length) :
    (∀ mi ∈ items, ∃ d,
      rLookup (insertPlaceholders st.monitoreditems_map items)
        mi.RequestedParameters.ClientHandle = some d ∧ d.server_handle = none) ∧
    ∃ st', create_monitored_items st items results = .ok (st', midsOf results) ∧
      (midsOf results).length = items.length ∧
      ∀ k r mi, results.get? k = some r → items.get? k = some mi →
        (r.StatusCode.isGood = true →
          (midsOf results).get? k = some (.mid r.MonitoredItemId) ∧
          ∃ d, rLookup st'.monitoreditems_map mi.RequestedParameters.ClientHandle = some d ∧
            d.server_handle = some r.MonitoredItemId) ∧
        (r.StatusCode.isGood = false →
          (midsOf results).get? k = some (.status r.StatusCode) ∧
          rLookup st'.monitoreditems_map mi.RequestedParameters.ClientHandle = none) := by
  refine ⟨fun mi hmi => insertPlaceholders_mem items st.monitoreditems_map _ ⟨mi, hmi, rfl⟩, ?_⟩
  obtain ⟨st', heq, hspec⟩ := create_monitored_items_spec st items results hnd hhd hlen
  refine ⟨st', heq, by simp [midsOf, hlen], ?_⟩
  intro k r mi hk hmi
  obtain ⟨hgood, hbad⟩ := hspec k r mi hk hmi
  have hkg : results[k]? = some r := by rw [← List.get?_eq_getElem?]; exact hk
  constructor
  · intro hg
    refine ⟨?_, hgood hg⟩
    simp only [midsOf, List.get?_eq_getElem?, List.getElem?_map, hkg, Option.map_some]
    simp [hg]
  · intro hg
    refine ⟨?_, hbad hg⟩
    simp only [midsOf, List.get?_eq_getElem?, List.getElem?_map, hkg, Option.map_some]
    simp [hg]

/-- Witness for C1 at a concrete input: one request with client handle
201 against a good result assigning monitored-item id 77. -/
theorem C1_witness :
    (regKeys sampleSub.monitoreditems_map).Nodup ∧
    (([⟨⟨10, 13⟩, .Reporting, ⟨201, 500, 0, true, none⟩⟩] :
        List MonitoredItemCreateRequest).map
      fun mi => mi.RequestedParameters.ClientHandle).Nodup ∧
    ([⟨⟨true⟩, 77⟩] : List MonitoredItemCreateResult).length =
      ([⟨⟨10, 13⟩, .Reporting, ⟨201, 500, 0, true, none⟩⟩] :
        List MonitoredItemCreateRequest).length ∧
    ((∀ mi ∈ ([⟨⟨10, 13⟩, .Reporting, ⟨201, 500, 0, true, none⟩⟩] :
        List MonitoredItemCreateRequest), ∃ d,
      rLookup (insertPlaceholders sampleSub.monitoreditems_map
          [⟨⟨10, 13⟩, .Reporting, ⟨201, 500, 0, true, none⟩⟩])
        mi.RequestedParameters.ClientHandle = some d ∧ d.server_handle = none) ∧
    ∃ st', create_monitored_items sampleSub
        [⟨⟨10, 13⟩, .Reporting, ⟨201, 500, 0, true, none⟩⟩] [⟨⟨true⟩, 77⟩] =
        .ok (st', midsOf [⟨⟨true⟩, 77⟩]) ∧
      (midsOf [⟨⟨true⟩, 77⟩]).length =
        ([⟨⟨10, 13⟩, .Reporting, ⟨201, 500, 0, true, none⟩⟩] :
          List MonitoredItemCreateRequest).length ∧
      ∀ k r mi, ([⟨⟨true⟩, 77⟩] : List MonitoredItemCreateResult).get? k = some r →
        ([⟨⟨10, 13⟩, .Reporting, ⟨201, 500, 0, true, none⟩⟩] :
          List MonitoredItemCreateRequest).get? k = some mi →
        (r.StatusCode.isGood = true →
          (midsOf [⟨⟨true⟩, 77⟩]).get? k = some (.mid r.MonitoredItemId) ∧
          ∃ d, rLookup st'.monitoreditems_map mi.RequestedParameters.ClientHandle = some d ∧
            d.server_handle = some r.MonitoredItemId) ∧
        (r.StatusCode.isGood = false →
          (midsOf [⟨⟨true⟩, 77⟩]).get? k = some (.status r.StatusCode) ∧
          rLookup st'.monitoreditems_map mi.RequestedParameters.ClientHandle = none)) :=
  ⟨by decide, by decide, by decide,
    C1_create_registers_then_fills sampleSub
      [⟨⟨10, 13⟩, .Reporting, ⟨201, 500, 0, true, none⟩⟩] [⟨⟨true⟩, 77⟩]
      (by decide) (by decide) (by decide)⟩

/-- C2 counterexample: a concrete event-notification record whose
client handle (300) is not in the registry is not logged and skipped;
the lookup raises KeyError, which also abandons the following record
(handle 301). -/
theorem C2_counterexample :
    _call_event noRaise sampleSub
      [⟨300, []⟩, ⟨301, []⟩] = .error .keyError := rfl

/-- C2 amended: for every event-notification record whose client handle
is not present in the registry, the direct registry lookup raises
KeyError, which propagates: the record is not dispatched and the
remaining records of the event list are not processed (unlike the
data-change path, which logs and skips). -/
theorem C2_event_unknown_handle_raises (o : Oracle) (st : Subscription)
    (ev : EventFieldList) (rest : List EventFieldList)
    (h : rLookup st.monitoreditems_map ev.ClientHandle = none) :
    _call_event o st (ev :: rest) = .error .keyError := by
  simp [_call_event, callEventOne, h]

/-- Witness for the amended C2 at a concrete input. -/
theorem C2_witness :
    rLookup sampleSub.monitoreditems_map 300 = none ∧
    _call_event noRaise sampleSub [⟨300, [⟨5⟩]⟩] = .error .keyError :=
  ⟨by decide,
    C2_event_unknown_handle_raises noRaise sampleSub ⟨300, [⟨5⟩]⟩ [] (by decide)⟩

/-- C3: a data-change record whose client handle is not in the registry
contributes exactly one logged warning to the trace: no callback is
invoked for it, and the remaining records of the batch are still
processed; the surrounding notification dispatch returns normally
(no exception). -/
theorem C3_datachange_unknown_skipped (o : Oracle) (st : Subscription)
    (item : MonitoredItemNotification) (rest : List MonitoredItemNotification)
    (h : rLookup st.monitoreditems_map item.ClientHandle = none) :
    _call_datachange o st ⟨item :: rest⟩ =
      Action.logWarning :: _call_datachange o st ⟨rest⟩ ∧
    processOne o st (NotificationData.dataChange ⟨item :: rest⟩) =
      .ok (Action.logWarning :: _call_datachange o st ⟨rest⟩) := by
  have h1 : _call_datachange o st ⟨item :: rest⟩ =
      Action.logWarning :: _call_datachange o st ⟨rest⟩ := by
    simp [_call_datachange, callDatachangeItem, h]
  exact ⟨h1, by simp [processOne, h1]⟩

/-- Witness for C3 at a concrete input: record with unknown handle 300
followed by a sibling record. -/
theorem C3_witness :
    rLookup sampleSubWithItems.monitoreditems_map 300 = none ∧
    (_call_datachange noRaise sampleSubWithItems ⟨[⟨300, ⟨⟨42⟩⟩⟩, ⟨201, ⟨⟨1⟩⟩⟩]⟩ =
      Action.logWarning :: _call_datachange noRaise sampleSubWithItems ⟨[⟨201, ⟨⟨1⟩⟩⟩]⟩ ∧
    processOne noRaise sampleSubWithItems
        (NotificationData.dataChange ⟨[⟨300, ⟨⟨42⟩⟩⟩, ⟨201, ⟨⟨1⟩⟩⟩]⟩) =
      .ok (Action.logWarning ::
        _call_datachange noRaise sampleSubWithItems ⟨[⟨201, ⟨⟨1⟩⟩⟩]⟩)) :=
  ⟨by decide,
    C3_datachange_unknown_skipped noRaise sampleSubWithItems ⟨300, ⟨⟨42⟩⟩⟩
      [⟨201, ⟨⟨1⟩⟩⟩] (by decide)⟩

/-- C4: whether an application callback raises during the dispatch of a
record has no effect on anything but the logs: the success of
processing, the callbacks invoked for every record of the response, and
the acknowledgement publish request are identical under any two raising
behaviours; a guarded dispatch adds at most a logged exception after
the invocation (the exception is caught, the loop and the
acknowledgement proceed). -/
theorem C4_callback_raise_isolated (st : Subscription) (pr : PublishResult)
    (o1 o2 : Oracle) :
    Except.map stripLogs (publish_callback o1 st pr) =
      Except.map stripLogs (publish_callback o2 st pr) ∧
    ∀ a : Action, dispatchTry o1 a = [a] ∨ dispatchTry o1 a = [a, Action.logException] := by
  refine ⟨publish_callback_strip o1 o2 st pr, fun a => ?_⟩
  unfold dispatchTry
  cases o1 a
  · exact Or.inl (if_neg (by simp))
  · exact Or.inr (if_pos rfl)

/-- C5 counterexample: a concrete publish response holding an
event-notification record with an unregistered client handle (999) is
handed to publish_callback and no acknowledgement is constructed or
sent: the dispatch raises KeyError instead of producing the
acknowledged trace. -/
theorem C5_counterexample :
    publish_callback noRaise sampleSub
      ⟨⟨5, [.eventList ⟨[⟨999, []⟩]⟩]⟩⟩ = .error .keyError := rfl

/-- C5 amended: for every publish response whose records all dispatch
without an unhandled error (in particular every event record resolves
in the registry), the trace ends with exactly one publish request
carrying exactly one acknowledgement, whose subscription id is this
subscription and whose sequence number is the sequence number of the
response notification message; no other publish request appears, and
it comes after all dispatched records. -/
theorem C5_single_ack_on_success (o : Oracle) (st : Subscription) (pr : PublishResult)
    (tr : List Action) (h : publish_callback o st pr = .ok tr) :
    ∃ tr', tr = tr' ++ [Action.publish [⟨st.subscription_id,
        pr.NotificationMessage.SequenceNumber⟩]] ∧
      ∀ a ∈ tr', a.isPub = false := by
  unfold publish_callback at h
  cases hp : processNotifs o st pr.NotificationMessage.NotificationData with
  | error e => simp [hp] at h
  | ok t =>
    simp only [hp, Except.ok.injEq] at h
    subst h
    refine ⟨Action.logInfo :: t, rfl, ?_⟩
    intro a ha
    rcases List.mem_cons.mp ha with rfl | ha'
    · rfl
    · exact processNotifs_no_pub o st _ t hp a ha'

/-- Witness for the amended C5 at a concrete input: a response carrying
one status-change record yields the acknowledged trace. -/
theorem C5_witness :
    publish_callback noRaise sampleSub ⟨⟨5, [.statusChange ⟨⟨false⟩⟩]⟩⟩ =
      .ok [Action.logInfo, Action.statusChange ⟨false⟩, Action.publish [⟨7, 5⟩]] ∧
    ∃ tr', [Action.logInfo, Action.statusChange ⟨false⟩, Action.publish [⟨7, 5⟩]] =
        tr' ++ [Action.publish [⟨sampleSub.subscription_id, 5⟩]] ∧
      ∀ a ∈ tr', a.isPub = false :=
  ⟨rfl,
    C5_single_ack_on_success noRaise sampleSub ⟨⟨5, [.statusChange ⟨⟨false⟩⟩]⟩⟩
      [Action.logInfo, Action.statusChange ⟨false⟩, Action.publish [⟨7, 5⟩]] rfl⟩

/-- C6: on one subscription whose handle counter is at its initial
value 200, the client handles assigned by any sequence of
monitored-item-request builds are strictly increasing (hence pairwise
distinct), every one strictly greater than 200, and the first assigned
handle is 201. -/
theorem C6_handle_allocation (st : Subscription) (specs : List RequestSpec)
    (h : st.client_handle = 200) :
    ((buildSeq st specs).2.map fun mi => mi.RequestedParameters.ClientHandle).Pairwise (· < ·) ∧
    ((buildSeq st specs).2.map fun mi => mi.RequestedParameters.ClientHandle).Nodup ∧
    (∀ a ∈ (buildSeq st specs).2.map fun mi => mi.RequestedParameters.ClientHandle,
      200 < a) ∧
    (specs ≠ [] →
      ((buildSeq st specs).2.map fun mi => mi.RequestedParameters.ClientHandle).head? =
        some 201) := by
  obtain ⟨hp, hgt, hh, _, _, _⟩ := buildSeq_spec specs st
  refine ⟨hp, hp.imp Nat.ne_of_lt, ?_, ?_⟩
  · intro a ha
    have := hgt a ha
    omega
  · intro hne
    rw [hh hne, h]

/-- Witness for C6 at a concrete input: two builds on a fresh
subscription. -/
theorem C6_witness :
    sampleSub.client_handle = 200 ∧
    (((buildSeq sampleSub [⟨1, 13, none, 0⟩, ⟨2, 12, none, 0⟩]).2.map
        fun mi => mi.RequestedParameters.ClientHandle).Pairwise (· < ·) ∧
      ((buildSeq sampleSub [⟨1, 13, none, 0⟩, ⟨2, 12, none, 0⟩]).2.map
        fun mi => mi.RequestedParameters.ClientHandle).Nodup ∧
      (∀ a ∈ (buildSeq sampleSub [⟨1, 13, none, 0⟩, ⟨2, 12, none, 0⟩]).2.map
        fun mi => mi.RequestedParameters.ClientHandle, 200 < a) ∧
      (([⟨1, 13, none, 0⟩, ⟨2, 12, none, 0⟩] : List RequestSpec) ≠ [] →
        ((buildSeq sampleSub [⟨1, 13, none, 0⟩, ⟨2, 12, none, 0⟩]).2.map
          fun mi => mi.RequestedParameters.ClientHandle).head? = some 201)) :=
  ⟨rfl, C6_handle_allocation sampleSub [⟨1, 13, none, 0⟩, ⟨2, 12, none, 0⟩] rfl⟩

/-- C7: if the server reports a good status for `unsubscribe(h)`, the
registry entry whose server handle equals `h` is removed (precisely:
the registry becomes its filter on the other entries, so every other
entry is unchanged and in place; the uniqueness of server handles is
the precondition the definite article of the claim presupposes); if
the server reports a non-good status, BadStatus is raised and, the
raise happening before the scan, the registry is untouched. -/
theorem C7_unsubscribe_removes_exactly (st : Subscription) (handle : Nat)
    (results : List StatusCode) (r : StatusCode) (h0 : results.get? 0 = some r) :
    (r.isGood = true →
      (st.monitoreditems_map.filter fun p =>
        decide (p.2.server_handle = some handle)).length ≤ 1 →
      unsubscribe st handle results =
        .ok { st with
              monitoreditems_map := st.monitoreditems_map.filter
                (fun p => !decide (p.2.server_handle = some handle)) }) ∧
    (r.isGood = false → unsubscribe st handle results = .error (.badStatus r)) := by
  constructor
  · intro hg hle
    unfold unsubscribe
    simp only [h0, hg, if_true]
    rw [removeFirst_eq_filter st.monitoreditems_map handle hle]
  · intro hg
    unfold unsubscribe
    simp only [h0, hg]
    simp

/-- Witness for C7 at a concrete input: removing server handle 77 from
a registry with entries for server handles 77 and 78. -/
theorem C7_witness :
    ([(⟨true⟩ : StatusCode)].get? 0 = some ⟨true⟩) ∧
    ((⟨true⟩ : StatusCode).isGood = true) ∧
    ((sampleSubWithItems.monitoreditems_map.filter fun p =>
      decide (p.2.server_handle = some 77)).length ≤ 1) ∧
    unsubscribe sampleSubWithItems 77 [⟨true⟩] =
      .ok { sampleSubWithItems with
            monitoreditems_map := sampleSubWithItems.monitoreditems_map.filter
              (fun p => !decide (p.2.server_handle = some 77)) } :=
  ⟨rfl, rfl, by decide,
    (C7_unsubscribe_removes_exactly sampleSubWithItems 77 [⟨true⟩] ⟨true⟩ rfl).1
      rfl (by decide)⟩

/-- C8: a single-target `_subscribe` whose only server result is
non-good raises the bad status; a collection-target `_subscribe`
returns the parallel result list with bad statuses in place, raising
nothing.  The collection branch is stated under one result per target
and well-formed registry keys. -/
theorem C8_single_raises_list_returns (st : Subscription) (attr : Nat)
    (mfilter : Option EventFilter) (queuesize : Nat)
    (hnd : (regKeys st.monitoreditems_map).Nodup) :
    (∀ n r, r.StatusCode.isGood = false →
      _subscribe st (.one n) attr mfilter queuesize [r] =
        .error (.badStatus r.StatusCode)) ∧
    (∀ ns results, results.length = ns.length →
      ∃ st', _subscribe st (.many ns) attr mfilter queuesize results =
          .ok (st', .many (midsOf results)) ∧
        ∀ k r, results.get? k = some r → r.StatusCode.isGood = false →
          (midsOf results).get? k = some (.status r.StatusCode)) := by
  constructor
  · intro n r hr
    simp [_subscribe, buildSeq, _make_monitored_item_request, create_monitored_items,
      insertPlaceholders, processResults, rLookup_rInsert_self, hr, midsOf]
  · intro ns results hlen
    obtain ⟨hp, _, _, _, hl, hm⟩ :=
      buildSeq_spec (ns.map fun n => ⟨n, attr, mfilter, queuesize⟩) st
    rcases hb : buildSeq st (ns.map fun n => ⟨n, attr, mfilter, queuesize⟩) with ⟨st1, mirs⟩
    rw [hb] at hp hl hm
    have hnodup : (mirs.map fun mi => mi.RequestedParameters.ClientHandle).Nodup :=
      hp.imp Nat.ne_of_lt
    have hnd1 : (regKeys st1.monitoreditems_map).Nodup := by rw [hm]; exact hnd
    have hlen1 : results.length = mirs.length := by
      rw [hl, List.length_map]; exact hlen
    obtain ⟨st', heq, _⟩ := create_monitored_items_spec st1 mirs results hnd1 hnodup hlen1
    refine ⟨st', ?_, ?_⟩
    · simp only [_subscribe, hb, heq]
      simp
    · intro k r hk hr
      have hkg : results[k]? = some r := by rw [← List.get?_eq_getElem?]; exact hk
      simp only [midsOf, List.get?_eq_getElem?, List.getElem?_map, hkg, Option.map_some]
      simp [hr]

/-- Witness for C8 at concrete inputs: the single branch at a bad
result and the list branch over two targets. -/
theorem C8_witness :
    (regKeys sampleSub.monitoreditems_map).Nodup ∧
    ((∀ n r, r.StatusCode.isGood = false →
      _subscribe sampleSub (.one n) 13 none 0 [r] = .error (.badStatus r.StatusCode)) ∧
    (∀ ns results, results.length = ns.length →
      ∃ st', _subscribe sampleSub (.many ns) 13 none 0 results =
          .ok (st', .many (midsOf results)) ∧
        ∀ k r, results.get? k = some r → r.StatusCode.isGood = false →
          (midsOf results).get? k = some (.status r.StatusCode))) :=
  ⟨by decide, C8_single_raises_list_returns sampleSub 13 none 0 (by decide)⟩

/-- C9: when the server reports a good status for `unsubscribe(h)` and
no registry entry has server handle `h`, the scan finds nothing:
the call returns normally and the registry is completely unchanged. -/
theorem C9_unsubscribe_no_match (st : Subscription) (handle : Nat)
    (results : List StatusCode) (r : StatusCode) (h0 : results.get? 0 = some r)
    (hg : r.isGood = true)
    (hno : ∀ p ∈ st.monitoreditems_map, p.2.server_handle ≠ some handle) :
    unsubscribe st handle results = .ok st := by
  unfold unsubscribe
  simp only [h0, hg, if_true]
  rw [removeFirst_no_match st.monitoreditems_map handle hno]

/-- Witness for C9 at a concrete input: server handle 99 matches no
entry of a registry holding server handles 77 and 78. -/
theorem C9_witness :
    ([(⟨true⟩ : StatusCode)].get? 0 = some ⟨true⟩) ∧
    ((⟨true⟩ : StatusCode).isGood = true) ∧
    (∀ p ∈ sampleSubWithItems.monitoreditems_map, p.2.server_handle ≠ some 99) ∧
    unsubscribe sampleSubWithItems 99 [⟨true⟩] = .ok sampleSubWithItems :=
  ⟨rfl, rfl, by decide,
    C9_unsubscribe_no_match sampleSubWithItems 99 [⟨true⟩] ⟨true⟩ rfl rfl (by decide)⟩

/-- C10: when the handler object has no status-change method, the
attribute access raises inside the guarded call, the exception is
caught and logged, and processing of the publish response continues
with the remaining records exactly as it would have. -/
theorem C10_status_handler_missing (o : Oracle) (st : Subscription)
    (s : StatusChangeNotification) (rest : List NotificationData)
    (h : st.handler.hasStatusChange = false) :
    _call_status o st s = [Action.logException] ∧
    processNotifs o st (NotificationData.statusChange s :: rest) =
      Except.map (fun ts => Action.logException :: ts) (processNotifs o st rest) := by
  have h1 : _call_status o st s = [Action.logException] := by
    simp [_call_status, h]
  refine ⟨h1, ?_⟩
  cases h2 : processNotifs o st rest with
  | error e => simp [processNotifs, processOne, h1, h2, Except.map]
  | ok ts => simp [processNotifs, processOne, h1, h2, Except.map]

/-- Witness for C10 at a concrete input: a handler implementing every
callback except status-change. -/
theorem C10_witness :
    (⟨7, 200, ⟨500⟩, [], ⟨true, true, true, true, false⟩⟩ :
      Subscription).handler.hasStatusChange = false ∧
    (_call_status noRaise ⟨7, 200, ⟨500⟩, [], ⟨true, true, true, true, false⟩⟩ ⟨⟨true⟩⟩ =
      [Action.logException] ∧
    processNotifs noRaise ⟨7, 200, ⟨500⟩, [], ⟨true, true, true, true, false⟩⟩
        (NotificationData.statusChange ⟨⟨true⟩⟩ :: [NotificationData.unsupported]) =
      Except.map (fun ts => Action.logException :: ts)
        (processNotifs noRaise ⟨7, 200, ⟨500⟩, [], ⟨true, true, true, true, false⟩⟩
          [NotificationData.unsupported])) :=
  ⟨rfl,
    C10_status_handler_missing noRaise ⟨7, 200, ⟨500⟩, [], ⟨true, true, true, true, false⟩⟩
      ⟨⟨true⟩⟩ [NotificationData.unsupported] rfl⟩

end OpcUa
